import Mathlib

/-!
Verification of the conversation-aware RAG orchestration pipeline
(`main.py`, `conversation_manager.py`, `utils.py`) of the rag-axel-backend
service, as a shallow embedding in Lean 4.

Conventions of the embedding:
* Python `datetime.now()` values are modelled as an explicit `Int` timestamp
  argument threaded into each state-mutating operation.
* Python floats (similarity scores) are modelled as `ℚ`; `round(x, 4)` and
  the `:.2f` format use exact decimal round-half-to-even on the rational,
  abstracting from binary-float representation error.
* A Python `dict` is an association list with unique keys, preserving
  insertion order; overwriting a present key keeps its position, writing an
  absent key appends at the end.
* Fallible operations (`max([])` raising `ValueError`) return `Except`.
* The `ollama` backend is an abstract deterministic stub `Backend`: for a
  prompt it has a list of answer fragments (the non-stream call returns
  their concatenation) and an optional failure point (`failAt prompt =
  some k` means the call raises after `k` fragments have been produced;
  the buffered call then raises before returning anything).
-/

namespace RagAxel

/-- Python list slicing `xs[i:]` (a slice from index `i`, possibly negative,
to the end of the list). Note `xs[-0:] = xs[0:] = xs` because `-0 = 0`. -/
def pySliceFrom (i : Int) {α : Type} (xs : List α) : List α :=
  if 0 ≤ i then xs.drop i.toNat
  else xs.drop (xs.length - (-i).toNat)

/-- Python list slicing `xs[:j]` (a slice from the start up to index `j`,
possibly negative). -/
def pySliceTo (j : Int) {α : Type} (xs : List α) : List α :=
  if 0 ≤ j then xs.take j.toNat
  else xs.take (xs.length - (-j).toNat)

/-- Python `max` over a list: `none` models the `ValueError` raised on an
empty sequence. -/
def pyMax (xs : List ℚ) : Option ℚ :=
  match xs with
  | [] => none
  | x :: rest => some (rest.foldl max x)

/-- Python `max` as an `Except`, modelling the `ValueError` exception. -/
def pyMaxE (xs : List ℚ) : Except String ℚ :=
  match pyMax xs with
  | some m => Except.ok m
  | none => Except.error "max() arg is an empty sequence"

/-- Round a rational to the nearest integer, ties to even (the rounding
used by Python `round` and `format`, on the exact decimal value). -/
def roundHalfEven (x : ℚ) : ℤ :=
  let f := ⌊x⌋
  let r := x - (f : ℚ)
  if r < 1/2 then f
  else if 1/2 < r then f + 1
  else if f % 2 = 0 then f else f + 1

/-- Python `round(x, 4)` on the exact rational score. -/
def pyRound4 (x : ℚ) : ℚ :=
  ((roundHalfEven (x * 10000) : ℤ) : ℚ) / 10000

/-- Python `f-string` formatting with `:.2f` on the exact rational value
(for nonnegative scores; an exactly-zero negative rounding would print
without the Python sign on `-0.00`). -/
def format2f (x : ℚ) : String :=
  let scaled := roundHalfEven (x * 100)
  let sign := if scaled < 0 then "-" else ""
  let n := scaled.natAbs
  sign ++ toString (n / 100) ++ "." ++
    (if n % 100 < 10 then "0" else "") ++ toString (n % 100)

/-- Python `str.strip()` on both ends (whitespace as `Char.isWhitespace`). -/
def pyStrip (s : String) : String :=
  String.mk (((s.data.dropWhile Char.isWhitespace).reverse.dropWhile
    Char.isWhitespace).reverse)

/-- Values appearing in message metadata dictionaries
(`has_relevant_docs`, `doc_count`, `max_score`, `sources_count`). -/
inductive MetaValue : Type
  | b (x : Bool)
  | q (x : ℚ)
  | n (x : Nat)
deriving DecidableEq, Repr

/-- A conversation message (`conversation_manager.py`, `add_message`). -/
structure Message : Type where
  role : String
  content : String
  timestamp : Int
  metadata : List (String × MetaValue)
deriving DecidableEq, Repr

/-- A conversation record (`conversation_manager.py`, `create_conversation`). -/
structure Conversation : Type where
  id : String
  created_at : Int
  updated_at : Int
  messages : List Message
deriving DecidableEq, Repr

/-- Lookup in a Python dict modelled as an association list: the first
(unique) binding of the key. -/
def dictGet (l : List (String × Conversation)) (k : String) : Option Conversation :=
  match l with
  | [] => none
  | (k', v) :: rest => if k' = k then some v else dictGet rest k

/-- Assignment `d[k] = v` in a Python dict: overwrite in place when the key
is present, append at the end when it is absent. -/
def dictInsert (l : List (String × Conversation)) (k : String) (v : Conversation) :
    List (String × Conversation) :=
  match l with
  | [] => [(k, v)]
  | (k', v') :: rest =>
      if k' = k then (k, v) :: rest else (k', v') :: dictInsert rest k v

/-- The session store (`ConversationManager.__init__`); the repository's
global instance uses `max_history = 10` and `conversation_ttl = 3600`. -/
structure ConversationManager : Type where
  conversations : List (String × Conversation)
  max_history : Nat
  conversation_ttl : Int
deriving DecidableEq, Repr

/-- The `messages[-max_history:]` trim of `add_message` (lines 42-44 of
`conversation_manager.py`). -/
def trimToCapacity (maxH : Nat) (msgs : List Message) : List Message :=
  if msgs.length > maxH then pySliceFrom (-(maxH : Int)) msgs else msgs

/-- Source `ConversationManager.create_conversation`: insert a fresh empty
conversation under the freshly generated uuid `newId` and return its id. -/
def ConversationManager.create_conversation (cm : ConversationManager)
    (now : Int) (newId : String) : ConversationManager × String :=
  ({ cm with conversations :=
      dictInsert cm.conversations newId ⟨newId, now, now, []⟩ }, newId)

/-- Source `ConversationManager.conversation_exists`. -/
def ConversationManager.conversation_exists (cm : ConversationManager)
    (conversation_id : String) : Bool :=
  (dictGet cm.conversations conversation_id).isSome

/-- Source `ConversationManager.add_message`: no-op for an unknown id;
otherwise append the message, refresh `updated_at`, and trim the history
to the trailing `max_history` slice when over capacity. -/
def ConversationManager.add_message (cm : ConversationManager) (now : Int)
    (conversation_id role content : String)
    (metadata : Option (List (String × MetaValue))) : ConversationManager :=
  match dictGet cm.conversations conversation_id with
  | none => cm
  | some conv =>
      let message : Message := ⟨role, content, now, metadata.getD []⟩
      let msgs := trimToCapacity cm.max_history (conv.messages ++ [message])
      let conv' : Conversation := { conv with messages := msgs, updated_at := now }
      { cm with conversations := dictInsert cm.conversations conversation_id conv' }

/-- Source `ConversationManager.get_conversation_history`: empty list for an
unknown id; with a truthy `limit` (any nonzero integer) the slice
`messages[-limit:]`, otherwise (absent or `0`) the whole retained window. -/
def ConversationManager.get_conversation_history (cm : ConversationManager)
    (conversation_id : String) (limit : Option Int) : List Message :=
  match dictGet cm.conversations conversation_id with
  | none => []
  | some conv =>
      match limit with
      | none => conv.messages
      | some l => if l = 0 then conv.messages else pySliceFrom (-l) conv.messages

/-- Source `ConversationManager.get_recent_context`. -/
def ConversationManager.get_recent_context (cm : ConversationManager)
    (conversation_id : String) (max_messages : Int) : List Message :=
  cm.get_conversation_history conversation_id (some max_messages)

/-- Source `ConversationManager.cleanup_expired_conversations`: collect the
ids whose `updated_at` is strictly older than `ttl` seconds, delete each of
them, and return how many were deleted. -/
def ConversationManager.cleanup_expired_conversations (cm : ConversationManager)
    (now : Int) : ConversationManager × Nat :=
  let expired_ids : List String :=
    (cm.conversations.filter
      (fun p => decide (now - p.2.updated_at > cm.conversation_ttl))).map Prod.fst
  ({ cm with conversations :=
      (expired_ids.foldl
        (fun conversations conv_id => conversations.filter (fun p => p.1 != conv_id))
        cm.conversations) },
   expired_ids.length)

/-- A scored passage as returned by `vector_db.search` and consumed by
`format_sources` (`utils.py`): a raw dict whose `metadata` entry may be
absent or `None`. -/
structure SearchResult : Type where
  text : String
  metadata : Option (List (String × String))
  score : ℚ
deriving DecidableEq, Repr

/-- A formatted source as produced by `format_sources`. -/
structure Source : Type where
  text : String
  metadata : List (String × String)
  score : ℚ
deriving DecidableEq, Repr

/-- Source `format_sources` (`utils.py`): keep text, default the metadata,
round the score to 4 decimals. -/
def format_sources (sources : List SearchResult) : List Source :=
  sources.map (fun source => ⟨source.text, source.metadata.getD [], pyRound4 source.score⟩)

/-- The `RAGResponse` model (`models.py`). -/
structure RAGResponse : Type where
  answer : String
  sources : List Source
  question : String
  conversation_id : Option String
deriving DecidableEq, Repr

/-- Modelled from the spec: the caller-supplied stream flag compared with
`StreamOption.TRUE` in `ask_question`; `StreamOption` is imported by
`main.py` but its definition is not among the repository's source files
(the spec: the Generate step "branches on a caller-supplied stream flag"). -/
inductive StreamOption : Type
  | TRUE
  | FALSE
deriving DecidableEq, Repr

/-- The `Query` model (`models.py`), together with the `stream` flag that
`ask_question` reads from it. -/
structure Query : Type where
  question : String
  top_k : Nat
  conversation_id : Option String
  stream : StreamOption
deriving DecidableEq, Repr

/-- The fixed degraded-service message (`utils.py` lines 38 and 78,
`main.py` line 290). -/
def degradedServiceMessage : String := "Error: Sistem sedang gangguan."

/-- The fixed no-relevant-information answer (`main.py` line 165). -/
def noRelevantAnswer : String :=
  "Maaf, saya tidak menemukan informasi yang relevan tentang pertanyaan Anda di dokumentasi API Telkom."

/-- The fixed insufficient-relevance answer (`main.py` line 192). -/
def lowRelevanceAnswer : String :=
  "Maaf, informasi yang saya miliki tidak cukup relevan untuk menjawab pertanyaan tersebut."

/-- The deterministic `ollama.generate` backend stub. `fragments prompt` is
the sequence of answer chunks the model streams for a prompt (the
non-streaming call returns their concatenation as the full response text);
`failAt prompt = some k` means the call raises after `k` chunks have been
produced (for the non-streaming call: raises instead of returning). -/
structure Backend : Type where
  fragments : String → List String
  failAt : String → Option Nat

/-- The prompt assembled (identically) by `generate_response_with_ollama`
and `generate_stream_response_with_ollama` (`utils.py` lines 9-23, 44-58):
history rendering followed by the instruction around context and question. -/
def mkAxelPrompt (context question : String) (conversation_history : List Message) : String :=
  let history_context :=
    if conversation_history = [] then ""
    else "\n\nRiwayat Percakapan Terkait:\n" ++
      String.join (conversation_history.map (fun msg =>
        (if msg.role = "user" then "User" else "Assistant") ++ ": " ++ msg.content ++ "\n"))
  "Berdasarkan informasi dokumentasi berikut:\n\n" ++ context ++ "\n" ++ history_context ++
    "\n\nJawab pertanyaan ini dengan singkat dan langsung ke intinya: " ++ question ++
    "\n\nJawaban:"

/-- Source `generate_response_with_ollama` (`utils.py`): buffered answer
generation; on success the stripped response text, on any backend failure
the fixed degraded-service message. -/
def generate_response_with_ollama (backend : Backend) (context question : String)
    (conversation_history : List Message) : String :=
  let prompt := mkAxelPrompt context question conversation_history
  match backend.failAt prompt with
  | some _ => degradedServiceMessage
  | none => pyStrip (String.join (backend.fragments prompt))

/-- Source `generate_stream_response_with_ollama` (`utils.py`): the finite
fragment sequence the generator yields; on a failure after `k` chunks it
yields those `k` chunks, then the degraded-service message, then stops. -/
def generate_stream_response_with_ollama (backend : Backend) (context question : String)
    (conversation_history : List Message) : List String :=
  let prompt := mkAxelPrompt context question conversation_history
  match backend.failAt prompt with
  | none => backend.fragments prompt
  | some k => (backend.fragments prompt).take k ++ [degradedServiceMessage]

/-- Source `build_enhanced_query` (`utils.py`): unchanged question for empty
history; else collect the user-authored contents among the last two history
messages and, when there is more than one, append all but the last as a
bracketed context suffix. -/
def build_enhanced_query (question : String) (conversation_history : List Message) : String :=
  if conversation_history = [] then question
  else
    let recent_user_messages :=
      ((pySliceFrom (-2) conversation_history).filter (fun msg => msg.role = "user")).map
        (fun msg => msg.content)
    if recent_user_messages.length > 1 then
      let context := String.intercalate " " (pySliceTo (-1) recent_user_messages)
      question ++ " [Konteks: " ++ context ++ "]"
    else question

/-- One server-sent event of the `/ask` stream (`main.py` lines 284-291):
the json payload `token` / `conversation_id` / `is_final`. -/
structure StreamEvent : Type where
  token : String
  conversation_id : String
  is_final : Bool
deriving DecidableEq, Repr

/-- The token source consumed by `generate_stream`'s `for` loop: a finite
sequence of tokens, either exhausted normally or raising after them. (The
actual source, `generate_stream_response_with_ollama`, catches every
backend exception internally, so in the composed cycle it never raises.) -/
inductive StreamSource : Type
  | ok (tokens : List String)
  | raising (tokens : List String)
deriving DecidableEq, Repr

/-- Source `generate_stream` (`main.py` lines 273-292): forward each token as
a non-final event; on normal completion emit a final event with empty token,
on an iteration failure emit a final event carrying the degraded-service
message. Returns the events together with the accumulated `full_answer`. -/
def generate_stream (src : StreamSource) (conversation_id : String) :
    List StreamEvent × String :=
  match src with
  | .ok tokens =>
      (tokens.map (fun token => ⟨token, conversation_id, false⟩) ++
        [⟨"", conversation_id, true⟩],
       String.join tokens)
  | .raising tokens =>
      (tokens.map (fun token => ⟨token, conversation_id, false⟩) ++
        [⟨degradedServiceMessage, conversation_id, true⟩],
       degradedServiceMessage)

/-- A message append scheduled on the background-task queue
(`background_tasks.add_task(conversation_manager.add_message, ...)`). -/
structure AppendTask : Type where
  conversation_id : String
  role : String
  content : String
  metadata : List (String × MetaValue)
deriving DecidableEq, Repr

/-- Run the scheduled background appends, in order, against a store. -/
def runTasks (cm : ConversationManager) (now : Int) (tasks : List AppendTask) :
    ConversationManager :=
  tasks.foldl
    (fun c t => c.add_message now t.conversation_id t.role t.content (some t.metadata)) cm

/-- What `/ask` hands back to the HTTP layer: a buffered `RAGResponse` or a
`StreamingResponse` event sequence. -/
inductive AskOutcome : Type
  | buffered (response : RAGResponse)
  | streamed (events : List StreamEvent)
deriving DecidableEq, Repr

/-- The answer text the caller receives from an outcome: the response body's
answer, or the concatenation of the non-final fragments of the stream. -/
def returnedAnswer : AskOutcome → String
  | .buffered response => response.answer
  | .streamed events =>
      String.join (events.filterMap (fun e => if e.is_final then none else some e.token))

/-- Conversation resolution (`main.py` lines 133-142): an unknown supplied id
is silently dropped; without a valid id a fresh conversation is created
under the newly generated uuid `newId`. -/
def resolve_conversation (cm : ConversationManager) (now : Int) (newId : String)
    (qid : Option String) : ConversationManager × String :=
  let conversation_id : Option String :=
    match qid with
    | some cid => if cm.conversation_exists cid then some cid else none
    | none => none
  match conversation_id with
  | some cid => (cm, cid)
  | none => cm.create_conversation now newId

/-- The context block assembled from the retrieved passages
(`main.py` lines 216-218). -/
def buildContext (results : List SearchResult) : String :=
  String.intercalate "\n\n" (results.enum.map (fun p =>
    "Source " ++ toString (p.1 + 1) ++ " (relevansi: " ++ format2f p.2.score ++ "):\n" ++
      p.2.text))

/-- Source `handle_normal_response` (`main.py` lines 237-267): buffered
generation, response assembly, and the two background appends (the second
`max` recomputation raises on an empty result list, modelled by `Except`). -/
def handle_normal_response (backend : Backend) (context question : String)
    (conversation_history : List Message) (results : List SearchResult)
    (conversation_id : String) (cm : ConversationManager) :
    Except String (ConversationManager × AskOutcome × List AppendTask) :=
  let answer := generate_response_with_ollama backend context question conversation_history
  let response : RAGResponse := ⟨answer, format_sources results, question, some conversation_id⟩
  match pyMaxE (results.map (fun r => r.score)) with
  | .error e => .error e
  | .ok max_score =>
      .ok (cm, .buffered response,
        [⟨conversation_id, "user", question,
          [("has_relevant_docs", .b true), ("doc_count", .n results.length),
           ("max_score", .q max_score)]⟩,
         ⟨conversation_id, "assistant", answer,
          [("has_relevant_docs", .b true), ("sources_count", .n results.length)]⟩])

/-- Source `handle_streaming_response` (`main.py` lines 269-311): stream the
generator's tokens through `generate_stream` (whose token source is the
never-raising `generate_stream_response_with_ollama`), then in the `finally`
block recompute the maximum score and schedule the two appends with the
accumulated `full_answer`. -/
def handle_streaming_response (backend : Backend) (context question : String)
    (conversation_history : List Message) (results : List SearchResult)
    (conversation_id : String) (cm : ConversationManager) :
    Except String (ConversationManager × AskOutcome × List AppendTask) :=
  let streamed := generate_stream
    (StreamSource.ok (generate_stream_response_with_ollama backend context question
      conversation_history)) conversation_id
  match pyMaxE (results.map (fun r => r.score)) with
  | .error e => .error e
  | .ok max_score =>
      .ok (cm, .streamed streamed.1,
        [⟨conversation_id, "user", question,
          [("has_relevant_docs", .b true), ("doc_count", .n results.length),
           ("max_score", .q max_score)]⟩,
         ⟨conversation_id, "assistant", streamed.2,
          [("has_relevant_docs", .b true), ("sources_count", .n results.length)]⟩])

/-- Source `ask_question` (`main.py` lines 129-235): resolve the
conversation, build the enhanced retrieval query from the last 3 history
messages, retrieve, gate on zero passages and on the 0.3 answer-worthiness
threshold, and otherwise branch on the stream flag. `search` abstracts
`vector_db.search` with the requested `top_k` already applied. -/
def ask_question (cm : ConversationManager) (now : Int) (newId : String)
    (search : String → List SearchResult) (backend : Backend) (query : Query) :
    Except String (ConversationManager × AskOutcome × List AppendTask) :=
  let rc := resolve_conversation cm now newId query.conversation_id
  let cm1 := rc.1
  let conversation_id := rc.2
  let conversation_history := cm1.get_recent_context conversation_id 3
  let enhanced_query := build_enhanced_query query.question conversation_history
  let results := search enhanced_query
  if results = [] then
    let response : RAGResponse := ⟨noRelevantAnswer, [], query.question, some conversation_id⟩
    .ok (cm1, .buffered response,
      [⟨conversation_id, "user", query.question, [("has_relevant_docs", .b false)]⟩,
       ⟨conversation_id, "assistant", response.answer, [("has_relevant_docs", .b false)]⟩])
  else
    match pyMaxE (results.map (fun r => r.score)) with
    | .error e => .error e
    | .ok max_score =>
        if max_score < 3/10 then
          let response : RAGResponse :=
            ⟨lowRelevanceAnswer, format_sources results, query.question, some conversation_id⟩
          .ok (cm1, .buffered response,
            [⟨conversation_id, "user", query.question,
              [("has_relevant_docs", .b false), ("max_score", .q max_score)]⟩,
             ⟨conversation_id, "assistant", response.answer,
              [("has_relevant_docs", .b false), ("max_score", .q max_score)]⟩])
        else
          let context := buildContext results
          if query.stream = StreamOption.TRUE then
            handle_streaming_response backend context query.question conversation_history
              results conversation_id cm1
          else
            handle_normal_response backend context query.question conversation_history
              results conversation_id cm1

/-- One element of an arbitrary sequence of `add_message` calls against a
fixed conversation (quantification apparatus for the retention claims). -/
structure AppendSpec : Type where
  now : Int
  role : String
  content : String
  metadata : Option (List (String × MetaValue))
deriving DecidableEq, Repr

/-- The `Message` record that `add_message` builds from an append. -/
def AppendSpec.toMessage (a : AppendSpec) : Message :=
  ⟨a.role, a.content, a.now, a.metadata.getD []⟩

/-- Apply a sequence of `add_message` calls to one conversation id. -/
def applyAppends (cm : ConversationManager) (conversation_id : String)
    (appends : List AppendSpec) : ConversationManager :=
  appends.foldl
    (fun c a => c.add_message a.now conversation_id a.role a.content a.metadata) cm

/-- The stored history of a conversation after a sequence of appends. -/
def historyAfter (cm : ConversationManager) (conversation_id : String)
    (appends : List AppendSpec) : List Message :=
  match dictGet (applyAppends cm conversation_id appends).conversations conversation_id with
  | some conv => conv.messages
  | none => []

/-- The conversation record after one `add_message` hit (proof-side
abbreviation for the update performed by `add_message`). -/
def updatedConv (conv : Conversation) (maxH : Nat) (now : Int) (msg : Message) :
    Conversation :=
  { conv with messages := trimToCapacity maxH (conv.messages ++ [msg]), updated_at := now }

section GeneralLemmas

theorem dictGet_dictInsert_self (l : List (String × Conversation)) (k : String)
    (v : Conversation) : dictGet (dictInsert l k v) k = some v := by
  induction l with
  | nil => simp [dictGet, dictInsert]
  | cons hd tl ih =>
      obtain ⟨k', v'⟩ := hd
      by_cases hk : k' = k
      · simp [dictGet, dictInsert, hk]
      · simp [dictGet, dictInsert, hk, ih]

theorem dictGet_dictInsert_ne (l : List (String × Conversation)) (k k' : String)
    (v : Conversation) (h : k' ≠ k) :
    dictGet (dictInsert l k v) k' = dictGet l k' := by
  have hkk : ¬ k = k' := fun h' => h h'.symm
  induction l with
  | nil => simp [dictGet, dictInsert, hkk]
  | cons hd tl ih =>
      obtain ⟨a, b⟩ := hd
      by_cases ha : a = k
      · subst ha
        simp [dictGet, dictInsert, hkk]
      · simp only [dictInsert, if_neg ha]
        by_cases ha' : a = k'
        · simp [dictGet, ha']
        · simp [dictGet, ha', ih]

theorem dictGet_eq_none_of_not_mem_keys (l : List (String × Conversation)) (k : String)
    (h : k ∉ l.map Prod.fst) : dictGet l k = none := by
  induction l with
  | nil => rfl
  | cons hd tl ih =>
      obtain ⟨a, b⟩ := hd
      simp only [List.map_cons, List.mem_cons] at h
      push_neg at h
      have hak : ¬ a = k := fun h' => h.1 h'.symm
      simp [dictGet, hak, ih h.2]

theorem pySliceFrom_negCoe {α : Type} (n : Nat) (hn : 0 < n) (xs : List α) :
    pySliceFrom (-(n : Int)) xs = xs.rtake n := by
  have h1 : ¬ (0 ≤ -(n : Int)) := by omega
  simp [pySliceFrom, h1, List.rtake]

theorem trimToCapacity_eq_rtake (maxH : Nat) (hpos : 0 < maxH) (msgs : List Message) :
    trimToCapacity maxH msgs = msgs.rtake maxH := by
  unfold trimToCapacity
  by_cases h : msgs.length > maxH
  · simp [h, pySliceFrom_negCoe maxH hpos]
  · have hle : msgs.length - maxH = 0 := by omega
    simp [h, List.rtake, hle]

theorem rtake_min {α : Type} (xs : List α) (n m : Nat) :
    (xs.rtake n).rtake m = xs.rtake (min m n) := by
  simp [List.rtake_eq_reverse_take_reverse, List.take_take]

theorem rtake_append_left {α : Type} (xs ys : List α) (n : Nat) :
    ((xs.rtake n) ++ ys).rtake n = (xs ++ ys).rtake n := by
  simp only [List.rtake_eq_reverse_take_reverse, List.reverse_append, List.reverse_reverse]
  rw [List.take_append_eq_append_take, List.take_append_eq_append_take,
    List.take_take]
  congr 1
  have h1 : n - ys.reverse.length ≤ n := Nat.sub_le _ _
  simp [Nat.min_eq_left h1]

theorem rtake_all {α : Type} (xs : List α) (n : Nat) (h : xs.length ≤ n) :
    xs.rtake n = xs := by
  have h0 : xs.length - n = 0 := by omega
  simp [List.rtake, h0]

theorem length_rtake {α : Type} (xs : List α) (n : Nat) :
    (xs.rtake n).length = min n xs.length := by
  simp [List.rtake]
  omega

theorem rtake_append_pair {α : Type} (xs : List α) (u a : α) :
    (xs ++ [u, a]).rtake 2 = [u, a] := by
  simp [List.rtake_eq_reverse_take_reverse]

theorem pyMax_cons (x : ℚ) (xs : List ℚ) : pyMax (x :: xs) = some (xs.foldl max x) := rfl

theorem pyMaxE_cons (x : ℚ) (xs : List ℚ) :
    pyMaxE (x :: xs) = Except.ok (xs.foldl max x) := rfl

theorem pyMaxE_ne_error (xs : List ℚ) (hne : xs ≠ []) (e : String) :
    pyMaxE xs ≠ Except.error e := by
  obtain ⟨y, ys, rfl⟩ := List.exists_cons_of_ne_nil hne
  simp [pyMaxE_cons]

theorem add_message_of_found (cm : ConversationManager) (now : Int)
    (cid role content : String) (md : Option (List (String × MetaValue)))
    (conv : Conversation) (h : dictGet cm.conversations cid = some conv) :
    cm.add_message now cid role content md =
      { cm with conversations := (dictInsert cm.conversations cid
          (updatedConv conv cm.max_history now ⟨role, content, now, md.getD []⟩)) } := by
  unfold ConversationManager.add_message
  rw [h]
  rfl

theorem add_message_of_missing (cm : ConversationManager) (now : Int)
    (cid role content : String) (md : Option (List (String × MetaValue)))
    (h : dictGet cm.conversations cid = none) :
    cm.add_message now cid role content md = cm := by
  unfold ConversationManager.add_message
  rw [h]

theorem dictGet_add_message_self (cm : ConversationManager) (now : Int)
    (cid role content : String) (md : Option (List (String × MetaValue)))
    (conv : Conversation) (h : dictGet cm.conversations cid = some conv) :
    dictGet (cm.add_message now cid role content md).conversations cid =
      some (updatedConv conv cm.max_history now ⟨role, content, now, md.getD []⟩) := by
  rw [add_message_of_found cm now cid role content md conv h]
  exact dictGet_dictInsert_self ..

theorem add_message_max_history (cm : ConversationManager) (now : Int)
    (cid role content : String) (md : Option (List (String × MetaValue))) :
    (cm.add_message now cid role content md).max_history = cm.max_history := by
  unfold ConversationManager.add_message
  cases dictGet cm.conversations cid <;> rfl

theorem foldl_trim_eq_rtake (maxH : Nat) (hpos : 0 < maxH) :
    ∀ (ms : List Message) (s : List Message), s.length ≤ maxH →
      ms.foldl (fun acc m => trimToCapacity maxH (acc ++ [m])) s = (s ++ ms).rtake maxH := by
  intro ms
  induction ms with
  | nil =>
      intro s hs
      simp [rtake_all _ _ hs]
  | cons m rest ih =>
      intro s hs
      have hstep : trimToCapacity maxH (s ++ [m]) = (s ++ [m]).rtake maxH :=
        trimToCapacity_eq_rtake maxH hpos _
      have hlen : ((s ++ [m]).rtake maxH).length ≤ maxH := by
        rw [length_rtake]; omega
      calc (m :: rest).foldl (fun acc m => trimToCapacity maxH (acc ++ [m])) s
      _ = rest.foldl (fun acc m => trimToCapacity maxH (acc ++ [m]))
            ((s ++ [m]).rtake maxH) := by simp [hstep]
      _ = (((s ++ [m]).rtake maxH) ++ rest).rtake maxH := ih _ hlen
      _ = ((s ++ [m]) ++ rest).rtake maxH := rtake_append_left ..
      _ = (s ++ m :: rest).rtake maxH := by simp

theorem applyAppends_spec :
    ∀ (appends : List AppendSpec) (cm : ConversationManager) (cid : String)
      (conv : Conversation), dictGet cm.conversations cid = some conv →
      ∃ conv', dictGet (applyAppends cm cid appends).conversations cid = some conv' ∧
        conv'.messages =
          appends.foldl
            (fun ms a => trimToCapacity cm.max_history (ms ++ [a.toMessage]))
            conv.messages := by
  intro appends
  induction appends with
  | nil =>
      intro cm cid conv h
      exact ⟨conv, h, by simp⟩
  | cons a rest ih =>
      intro cm cid conv h
      have hstep := dictGet_add_message_self cm a.now cid a.role a.content a.metadata conv h
      have hmh := add_message_max_history cm a.now cid a.role a.content a.metadata
      obtain ⟨conv', hget, hmsgs⟩ :=
        ih (cm.add_message a.now cid a.role a.content a.metadata) cid _ hstep
      refine ⟨conv', ?_, ?_⟩
      · simpa [applyAppends] using hget
      · rw [hmsgs, hmh]
        simp [AppendSpec.toMessage, updatedConv]

theorem resolve_conversation_found (cm : ConversationManager) (now : Int)
    (newId : String) (qid : Option String) :
    ∃ conv, dictGet (resolve_conversation cm now newId qid).1.conversations
      (resolve_conversation cm now newId qid).2 = some conv := by
  unfold resolve_conversation
  cases qid with
  | none =>
      simp only [ConversationManager.create_conversation]
      exact ⟨_, dictGet_dictInsert_self ..⟩
  | some cid =>
      by_cases h : cm.conversation_exists cid
      · obtain ⟨conv, hconv⟩ := Option.isSome_iff_exists.mp h
        exact ⟨conv, by simp [h, hconv]⟩
      · simp only [h, Bool.false_eq_true, if_false, ConversationManager.create_conversation]
        exact ⟨_, dictGet_dictInsert_self ..⟩

theorem resolve_conversation_max_history (cm : ConversationManager) (now : Int)
    (newId : String) (qid : Option String) :
    (resolve_conversation cm now newId qid).1.max_history = cm.max_history := by
  unfold resolve_conversation
  cases qid with
  | none => rfl
  | some cid => by_cases h : cm.conversation_exists cid <;> simp [h,
      ConversationManager.create_conversation]

theorem nonFinal_of_generate_stream_ok (tokens : List String) (cid : String) :
    ((generate_stream (StreamSource.ok tokens) cid).1.filterMap
      (fun e => if e.is_final then none else some e.token)) = tokens := by
  simp [generate_stream, List.filterMap_append, List.filterMap_map, Function.comp_def]

theorem returnedAnswer_streamed_ok (tokens : List String) (cid : String) :
    returnedAnswer (.streamed (generate_stream (StreamSource.ok tokens) cid).1) =
      (generate_stream (StreamSource.ok tokens) cid).2 := by
  simp only [returnedAnswer]
  rw [nonFinal_of_generate_stream_ok]
  rfl

theorem countP_final_generate_stream_ok (tokens : List String) (cid : String) :
    ((generate_stream (StreamSource.ok tokens) cid).1.countP (fun e => e.is_final)) = 1 := by
  simp [generate_stream, List.countP_append, List.countP_map, Function.comp, List.countP_cons]

theorem getLast_generate_stream_ok (tokens : List String) (cid : String) :
    ((generate_stream (StreamSource.ok tokens) cid).1.getLast?.map
      (fun e => (e.token, e.is_final))) = some ("", true) := by
  simp [generate_stream, List.getLast?_append]

theorem foldl_erase_eq_filter (E : List String) (l : List (String × Conversation)) :
    E.foldl (fun acc conv_id => acc.filter (fun p => p.1 != conv_id)) l =
      l.filter (fun p => !(E.contains p.1)) := by
  induction E generalizing l with
  | nil => simp
  | cons k E ih =>
      rw [List.foldl_cons, ih, List.filter_filter]
      refine List.filter_congr (fun p _ => ?_)
      by_cases hk : p.1 = k
      · simp [hk]
      · simp [hk, bne_iff_ne, Bool.and_comm]

theorem entry_eq_of_nodup_keys (l : List (String × Conversation))
    (hnd : (l.map Prod.fst).Nodup) (p q : String × Conversation)
    (hp : p ∈ l) (hq : q ∈ l) (h : p.1 = q.1) : p = q :=
  List.inj_on_of_nodup_map hnd hp hq h

theorem dictGet_eq_some_iff_mem (l : List (String × Conversation)) (k : String)
    (v : Conversation) (hnd : (l.map Prod.fst).Nodup) :
    dictGet l k = some v ↔ (k, v) ∈ l := by
  induction l with
  | nil => simp [dictGet]
  | cons hd tl ih =>
      obtain ⟨a, b⟩ := hd
      simp only [List.map_cons, List.nodup_cons] at hnd
      by_cases ha : a = k
      · subst ha
        simp only [dictGet, if_pos rfl, List.mem_cons]
        constructor
        · rintro h
          exact Or.inl (by simpa using h.symm)
        · rintro (h | h)
          · simpa using congrArg Prod.snd h.symm
          · exact absurd (List.mem_map_of_mem Prod.fst h) (by simpa using hnd.1)
      · simp only [dictGet, if_neg ha, List.mem_cons, ih hnd.2]
        constructor
        · exact Or.inr
        · rintro (h | h)
          · exact absurd (congrArg Prod.fst h.symm) ha
          · exact h

theorem dictGet_filter (l : List (String × Conversation)) (f : String × Conversation → Bool)
    (k : String) (hnd : (l.map Prod.fst).Nodup) :
    dictGet (l.filter f) k =
      match dictGet l k with
      | some v => if f (k, v) then some v else none
      | none => none := by
  induction l with
  | nil => simp [dictGet]
  | cons hd tl ih =>
      obtain ⟨a, b⟩ := hd
      simp only [List.map_cons, List.nodup_cons] at hnd
      by_cases ha : a = k
      · subst ha
        have htl : dictGet tl a = none :=
          dictGet_eq_none_of_not_mem_keys tl a (by simpa using hnd.1)
        have htlf : dictGet (tl.filter f) a = none := by
          refine dictGet_eq_none_of_not_mem_keys _ _ (fun hmem => ?_)
          obtain ⟨q, hq, hqa⟩ := List.mem_map.mp hmem
          exact absurd (List.mem_map_of_mem Prod.fst (List.mem_of_mem_filter hq))
            (by simpa [hqa] using hnd.1)
        by_cases hf : f (a, b)
        · simp [List.filter_cons, hf, dictGet]
        · simp [List.filter_cons, hf, dictGet, htlf]
      · by_cases hf : f (a, b)
        · simpa [List.filter_cons, hf, dictGet, ha] using ih hnd.2
        · simpa [List.filter_cons, hf, dictGet, ha] using ih hnd.2

theorem length_filter_add_length_filter_not {α : Type} (l : List α) (p : α → Bool) :
    (l.filter p).length + (l.filter (fun a => !(p a))).length = l.length := by
  induction l with
  | nil => simp
  | cons hd tl ih =>
      by_cases hp : p hd <;> simp [List.filter_cons, hp] <;> omega

theorem contains_expired_keys (l : List (String × Conversation))
    (f : String × Conversation → Bool) (hnd : (l.map Prod.fst).Nodup)
    (p : String × Conversation) (hp : p ∈ l) :
    ((l.filter f).map Prod.fst).contains p.1 = f p := by
  by_cases hf : f p
  · have : p.1 ∈ (l.filter f).map Prod.fst :=
      List.mem_map_of_mem Prod.fst (List.mem_filter.mpr ⟨hp, hf⟩)
    simp [hf, this]
  · have hf' : f p = false := by simpa using hf
    rw [hf']
    by_contra hc
    have hc' : ((l.filter f).map Prod.fst).contains p.1 = true := by
      revert hc
      cases ((l.filter f).map Prod.fst).contains p.1 <;> simp
    obtain ⟨a, ha, hpa⟩ := List.contains_iff_exists_mem_beq.mp hc'
    obtain ⟨q, hq, hqa⟩ := List.mem_map.mp ha
    have hpq : p = q :=
      entry_eq_of_nodup_keys l hnd p q hp (List.mem_of_mem_filter hq)
        (by rw [beq_iff_eq.mp hpa, hqa])
    rw [hpq] at hf
    exact absurd (List.mem_filter.mp hq).2 hf

theorem run_two_appends (cm : ConversationManager) (now2 : Int) (cid : String)
    (conv : Conversation) (h : dictGet cm.conversations cid = some conv)
    (h2 : 2 ≤ cm.max_history) (t1 t2 : AppendTask)
    (h1c : t1.conversation_id = cid) (h2c : t2.conversation_id = cid) :
    ∃ conv', dictGet (runTasks cm now2 [t1, t2]).conversations cid = some conv' ∧
      conv'.messages.rtake 2 =
        [⟨t1.role, t1.content, now2, t1.metadata⟩,
         ⟨t2.role, t2.content, now2, t2.metadata⟩] := by
  have hpos : 0 < cm.max_history := by omega
  have hget1 := dictGet_add_message_self cm now2 cid t1.role t1.content
    (some t1.metadata) conv h
  have hmh : (cm.add_message now2 cid t1.role t1.content (some t1.metadata)).max_history =
      cm.max_history := add_message_max_history ..
  have hget2 := dictGet_add_message_self
    (cm.add_message now2 cid t1.role t1.content (some t1.metadata)) now2 cid
    t2.role t2.content (some t2.metadata) _ hget1
  refine ⟨updatedConv
      (updatedConv conv cm.max_history now2
        ⟨t1.role, t1.content, now2, (some t1.metadata).getD []⟩)
      (cm.add_message now2 cid t1.role t1.content (some t1.metadata)).max_history now2
      ⟨t2.role, t2.content, now2, (some t2.metadata).getD []⟩, ?_, ?_⟩
  · have hrun : runTasks cm now2 [t1, t2] =
        (cm.add_message now2 cid t1.role t1.content (some t1.metadata)).add_message
          now2 cid t2.role t2.content (some t2.metadata) := by
      simp [runTasks, h1c, h2c]
    rw [hrun]
    exact hget2
  · simp only [updatedConv, Option.getD_some, hmh]
    rw [trimToCapacity_eq_rtake _ hpos, trimToCapacity_eq_rtake _ hpos,
      rtake_append_left, rtake_min, Nat.min_eq_left h2, List.append_assoc]
    exact rtake_append_pair ..

theorem pySliceFrom_neg_two_pair {α : Type} (pre : List α) (u a : α) :
    pySliceFrom (-2) (pre ++ [u, a]) = [u, a] := by
  have h1 : ¬ ((0 : Int) ≤ -2) := by omega
  simp only [pySliceFrom, h1, if_false]
  have h2 : (pre ++ [u, a]).length - ((-(-2 : Int)).toNat) = pre.length := by
    simp
  rw [h2]
  exact List.drop_left pre [u, a]

theorem pySliceTo_neg_one_pair {α : Type} (x y : α) : pySliceTo (-1) [x, y] = [x] := by
  have h1 : ¬ ((0 : Int) ≤ -1) := by omega
  simp [pySliceTo, h1]

theorem dictGet_ne_none_of_mem_keys (l : List (String × Conversation)) (k : String)
    (h : k ∈ l.map Prod.fst) : dictGet l k ≠ none := by
  induction l with
  | nil => simp at h
  | cons hd tl ih =>
      obtain ⟨a, b⟩ := hd
      by_cases ha : a = k
      · simp [dictGet, ha]
      · have : k ∈ tl.map Prod.fst := by
          rcases List.mem_cons.mp h with h' | h'
          · exact absurd h'.symm ha
          · exact h'
        simp [dictGet, ha, ih this]

end GeneralLemmas

section Claims

/-- C2 (counterexample): the retention claim fails at `max_history = 0`.
The trim slice `messages[-max_history:]` is `messages[-0:]`, which is the
whole list because `-0 = 0`, so after one append to a fresh conversation the
stored history has length 1, which exceeds `max_history = 0`, and is not the
most recent `0` messages. -/
theorem C2_counterexample :
    (historyAfter ⟨[("c", ⟨"c", 0, 0, []⟩)], 0, 3600⟩ "c" [⟨1, "user", "hi", none⟩]).length = 1 ∧
    (⟨[("c", ⟨"c", 0, 0, []⟩)], 0, 3600⟩ : ConversationManager).max_history = 0 :=
  ⟨rfl, rfl⟩

/-- C2 (amended with the proviso `0 < max_history` forced by the
counterexample): for a conversation starting with empty history, after every
prefix of an arbitrary sequence of appends the stored history holds at most
`max_history` messages, and appending more than `max_history` messages
leaves exactly the most recent `max_history` of them, in their original
insertion order (oldest dropped first). -/
theorem C2_retention (cm : ConversationManager) (cid : String) (conv : Conversation)
    (appends : List AppendSpec) (hpos : 0 < cm.max_history)
    (hget : dictGet cm.conversations cid = some conv) (hempty : conv.messages = []) :
    (∀ k : Nat, (historyAfter cm cid (appends.take k)).length ≤ cm.max_history) ∧
    (cm.max_history < appends.length →
      historyAfter cm cid appends =
        (appends.map AppendSpec.toMessage).drop (appends.length - cm.max_history)) := by
  have key : ∀ l : List AppendSpec,
      historyAfter cm cid l = (l.map AppendSpec.toMessage).rtake cm.max_history := by
    intro l
    obtain ⟨conv', hget', hmsgs⟩ := applyAppends_spec l cm cid conv hget
    unfold historyAfter
    rw [hget']
    show conv'.messages = _
    rw [hmsgs, hempty,
      ← List.foldl_map AppendSpec.toMessage
        (fun acc m => trimToCapacity cm.max_history (acc ++ [m])) l [],
      foldl_trim_eq_rtake cm.max_history hpos _ [] (by simp)]
    simp
  constructor
  · intro k
    rw [key, length_rtake]
    omega
  · intro hlong
    rw [key]
    simp [List.rtake, List.length_map]

/-- C2 (witness): a store with capacity 2 receiving 3 appends retains at
most 2 messages, namely exactly the last two appended ones. -/
theorem C2_retention_witness :
    (historyAfter ⟨[("c", ⟨"c", 0, 0, []⟩)], 2, 3600⟩ "c"
      [⟨1, "user", "a", none⟩, ⟨2, "assistant", "b", none⟩,
       ⟨3, "user", "c", none⟩]).length ≤ 2 ∧
    historyAfter ⟨[("c", ⟨"c", 0, 0, []⟩)], 2, 3600⟩ "c"
      [⟨1, "user", "a", none⟩, ⟨2, "assistant", "b", none⟩, ⟨3, "user", "c", none⟩] =
      ([⟨1, "user", "a", none⟩, ⟨2, "assistant", "b", none⟩,
        ⟨3, "user", "c", none⟩].map AppendSpec.toMessage).drop (3 - 2) :=
  ⟨(C2_retention ⟨[("c", ⟨"c", 0, 0, []⟩)], 2, 3600⟩ "c" ⟨"c", 0, 0, []⟩
      [⟨1, "user", "a", none⟩, ⟨2, "assistant", "b", none⟩, ⟨3, "user", "c", none⟩]
      (by decide) rfl rfl).1 3,
   (C2_retention ⟨[("c", ⟨"c", 0, 0, []⟩)], 2, 3600⟩ "c" ⟨"c", 0, 0, []⟩
      [⟨1, "user", "a", none⟩, ⟨2, "assistant", "b", none⟩, ⟨3, "user", "c", none⟩]
      (by decide) rfl rfl).2 (by decide)⟩

/-- C9 (counterexample): a supplied limit of `0` is falsy in Python
(`if limit:`), so `get_conversation_history` returns the entire retained
window instead of the most recent `0` messages (which would be the empty
sequence): on a conversation holding one message it returns that message. -/
theorem C9_counterexample :
    (⟨[("c", ⟨"c", 0, 0, [⟨"user", "m", 0, []⟩]⟩)], 10, 3600⟩ :
      ConversationManager).get_conversation_history "c" (some 0) ≠ [] := by
  decide

/-- C9 (amended, the zero-limit case forced by the counterexample): for an
unknown id `get_history` returns the empty sequence for every limit, never
erroring; for a known conversation, no supplied limit — or the falsy limit
`0` — returns the entire retained window, and every positive supplied limit
returns the most recent `limit` retained messages (all of them when fewer)
in insertion order. The operation reads the store without modifying it. -/
theorem C9_get_history (cm : ConversationManager) (cid : String) :
    (dictGet cm.conversations cid = none →
      ∀ limit, cm.get_conversation_history cid limit = []) ∧
    (∀ conv, dictGet cm.conversations cid = some conv →
      cm.get_conversation_history cid none = conv.messages ∧
      cm.get_conversation_history cid (some 0) = conv.messages ∧
      (∀ l : Int, 0 < l →
        cm.get_conversation_history cid (some l) =
          conv.messages.drop (conv.messages.length - l.toNat))) := by
  constructor
  · intro h limit
    unfold ConversationManager.get_conversation_history
    rw [h]
  · intro conv h
    refine ⟨?_, ?_, ?_⟩
    · unfold ConversationManager.get_conversation_history
      rw [h]
    · unfold ConversationManager.get_conversation_history
      rw [h]
      simp
    · intro l hl
      unfold ConversationManager.get_conversation_history
      rw [h]
      have hne : ¬ (l = 0) := by omega
      have hcast : -l = -((l.toNat : Nat) : Int) := by omega
      simp only [hne, if_false]
      rw [hcast, pySliceFrom_negCoe l.toNat (by omega)]
      simp [List.rtake]

/-- C9 (witness): on a store holding one conversation with three messages,
an unknown id yields `[]`, no limit yields the whole window, and limit `2`
yields the last two messages. -/
theorem C9_get_history_witness :
    (⟨[("c", ⟨"c", 0, 0, [⟨"user", "a", 0, []⟩, ⟨"assistant", "b", 1, []⟩,
        ⟨"user", "x", 2, []⟩]⟩)], 10, 3600⟩ :
      ConversationManager).get_conversation_history "zzz" (some 5) = [] ∧
    (⟨[("c", ⟨"c", 0, 0, [⟨"user", "a", 0, []⟩, ⟨"assistant", "b", 1, []⟩,
        ⟨"user", "x", 2, []⟩]⟩)], 10, 3600⟩ :
      ConversationManager).get_conversation_history "c" none =
      [⟨"user", "a", 0, []⟩, ⟨"assistant", "b", 1, []⟩, ⟨"user", "x", 2, []⟩] ∧
    (⟨[("c", ⟨"c", 0, 0, [⟨"user", "a", 0, []⟩, ⟨"assistant", "b", 1, []⟩,
        ⟨"user", "x", 2, []⟩]⟩)], 10, 3600⟩ :
      ConversationManager).get_conversation_history "c" (some 2) =
      [⟨"user", "a", 0, []⟩, ⟨"assistant", "b", 1, []⟩,
        ⟨"user", "x", 2, []⟩].drop
        ([(⟨"user", "a", 0, []⟩ : Message), ⟨"assistant", "b", 1, []⟩,
          ⟨"user", "x", 2, []⟩].length - (2 : Int).toNat) :=
  ⟨(C9_get_history ⟨[("c", ⟨"c", 0, 0, [⟨"user", "a", 0, []⟩, ⟨"assistant", "b", 1, []⟩,
      ⟨"user", "x", 2, []⟩]⟩)], 10, 3600⟩ "zzz").1 rfl (some 5),
   ((C9_get_history ⟨[("c", ⟨"c", 0, 0, [⟨"user", "a", 0, []⟩, ⟨"assistant", "b", 1, []⟩,
      ⟨"user", "x", 2, []⟩]⟩)], 10, 3600⟩ "c").2 _ rfl).1,
   (((C9_get_history ⟨[("c", ⟨"c", 0, 0, [⟨"user", "a", 0, []⟩, ⟨"assistant", "b", 1, []⟩,
      ⟨"user", "x", 2, []⟩]⟩)], 10, 3600⟩ "c").2 _ rfl).2.2 2 (by decide))⟩

/-- C3 (counterexample): the history `[user "first", assistant "reply",
user "second"]` contains two prior user-authored turns, so the claim
requires the enhanced query to carry the text `first` in a bracketed
context suffix; but the code inspects only the last two messages (one of
which is an assistant turn here), finds a single user message, and returns
the question unchanged, which does not contain `first`. -/
theorem C3_counterexample :
    build_enhanced_query "q?"
      [⟨"user", "first", 0, []⟩, ⟨"assistant", "reply", 1, []⟩,
       ⟨"user", "second", 2, []⟩] = "q?" ∧
    ¬ "first".data <:+: (build_enhanced_query "q?"
      [⟨"user", "first", 0, []⟩, ⟨"assistant", "reply", 1, []⟩,
       ⟨"user", "second", 2, []⟩]).data := by
  constructor
  · rfl
  · decide

/-- C3 (amended: the condition is on the last two messages of the history,
not on the last two user-authored turns anywhere in it): `enhance(q, [])`
is `q`; whenever at most one of the last two history messages is
user-authored, the result is `q` unchanged; and when the last two history
messages are both user-authored, the result is exactly `q` followed by a
bracketed context suffix carrying the earlier of those two user contents —
assistant turns are never incorporated. -/
theorem C3_enhance (q : String) (hist : List Message) :
    (hist = [] → build_enhanced_query q hist = q) ∧
    (((pySliceFrom (-2) hist).filter (fun msg => msg.role = "user")).length ≤ 1 →
      build_enhanced_query q hist = q) ∧
    (∀ pre m₁ m₂, hist = pre ++ [m₁, m₂] → m₁.role = "user" → m₂.role = "user" →
      build_enhanced_query q hist = q ++ " [Konteks: " ++ m₁.content ++ "]") := by
  refine ⟨?_, ?_, ?_⟩
  · intro h
    simp [build_enhanced_query, h]
  · intro hle
    unfold build_enhanced_query
    by_cases hh : hist = []
    · simp [hh]
    · have hlen : ¬ (((pySliceFrom (-2) hist).filter
          (fun msg => msg.role = "user")).map (fun msg => msg.content)).length > 1 := by
        rw [List.length_map]
        omega
      simp [hh, hlen]
      exact fun hgt => absurd hgt (by omega)
  · intro pre m₁ m₂ hh h1 h2
    subst hh
    have hne : ¬ (pre ++ [m₁, m₂] = []) := by simp
    have hslice : pySliceFrom (-2) (pre ++ [m₁, m₂]) = [m₁, m₂] :=
      pySliceFrom_neg_two_pair pre m₁ m₂
    unfold build_enhanced_query
    rw [if_neg hne, hslice]
    simp only [List.filter_cons, h1, h2, decide_eq_true_eq, if_pos, List.filter_nil,
      List.map_cons, List.map_nil, List.length_cons, List.length_nil]
    rw [if_pos (by omega), pySliceTo_neg_one_pair]
    rfl

/-- C3 (witness): empty history and single-user-turn history leave the
question unchanged; two trailing user turns produce the bracketed suffix
with the earlier content. -/
theorem C3_enhance_witness :
    build_enhanced_query "q" [] = "q" ∧
    build_enhanced_query "q" [⟨"user", "only", 0, []⟩] = "q" ∧
    build_enhanced_query "q" [⟨"user", "a", 0, []⟩, ⟨"user", "b", 1, []⟩] =
      "q" ++ " [Konteks: " ++ "a" ++ "]" :=
  ⟨(C3_enhance "q" []).1 rfl,
   (C3_enhance "q" [⟨"user", "only", 0, []⟩]).2.1 (by decide),
   (C3_enhance "q" [⟨"user", "a", 0, []⟩, ⟨"user", "b", 1, []⟩]).2.2 []
     ⟨"user", "a", 0, []⟩ ⟨"user", "b", 1, []⟩ rfl rfl rfl⟩

/-- C7: answer generation fails closed. Whenever the backend raises (at
any point `k` of the stream), the buffered call returns the fixed
degraded-service message instead of propagating the error, and the
streaming call yields the chunks produced before the failure, then exactly
one fallback fragment carrying that same message, and then terminates. -/
theorem C7_fails_closed (backend : Backend) (context question : String)
    (hist : List Message) (k : Nat)
    (h : backend.failAt (mkAxelPrompt context question hist) = some k) :
    generate_response_with_ollama backend context question hist = degradedServiceMessage ∧
    generate_stream_response_with_ollama backend context question hist =
      (backend.fragments (mkAxelPrompt context question hist)).take k ++
        [degradedServiceMessage] := by
  constructor
  · simp only [generate_response_with_ollama, h]
  · simp only [generate_stream_response_with_ollama, h]

/-- C7 (witness): a backend raising after one of its two chunks makes the
buffered call answer with the degraded-service message and the streaming
call yield the first chunk followed by the fallback fragment. -/
theorem C7_fails_closed_witness :
    generate_response_with_ollama ⟨fun _ => ["a", "b"], fun _ => some 1⟩ "ctx" "q" [] =
      degradedServiceMessage ∧
    generate_stream_response_with_ollama ⟨fun _ => ["a", "b"], fun _ => some 1⟩ "ctx" "q" [] =
      ((⟨fun _ => ["a", "b"], fun _ => some 1⟩ : Backend).fragments
        (mkAxelPrompt "ctx" "q" [])).take 1 ++ [degradedServiceMessage] :=
  C7_fails_closed ⟨fun _ => ["a", "b"], fun _ => some 1⟩ "ctx" "q" [] 1 rfl

/-- C8: the expiry sweep removes a conversation exactly when
`now - updated_at > ttl` (strictly), keeps every conversation touched
within `ttl` unchanged, touches no other entry, and returns the number of
conversations removed (stated as removed + remaining = original count).
Keys are unique, as in a Python dict. -/
theorem C8_sweep (cm : ConversationManager) (now : Int)
    (cm' : ConversationManager) (n : Nat)
    (hnd : (cm.conversations.map Prod.fst).Nodup)
    (h : cm.cleanup_expired_conversations now = (cm', n)) :
    (∀ cid conv, dictGet cm.conversations cid = some conv →
      dictGet cm'.conversations cid =
        (if cm.conversation_ttl < now - conv.updated_at then none else some conv)) ∧
    (∀ cid, dictGet cm.conversations cid = none → dictGet cm'.conversations cid = none) ∧
    n + cm'.conversations.length = cm.conversations.length := by
  have hpair := h
  unfold ConversationManager.cleanup_expired_conversations at hpair
  have hcm' : cm'.conversations =
      cm.conversations.filter (fun p =>
        !((((cm.conversations.filter
            (fun p => decide (now - p.2.updated_at > cm.conversation_ttl))).map
              Prod.fst)).contains p.1)) := by
    have := congrArg Prod.fst hpair
    simp only at this
    rw [← this, foldl_erase_eq_filter]
  have hn : n = ((cm.conversations.filter
      (fun p => decide (now - p.2.updated_at > cm.conversation_ttl))).map
        Prod.fst).length := by
    have := congrArg Prod.snd hpair
    simp only at this
    omega
  refine ⟨?_, ?_, ?_⟩
  · intro cid conv hget
    rw [hcm', dictGet_filter cm.conversations _ cid hnd, hget]
    have hmem : (cid, conv) ∈ cm.conversations :=
      (dictGet_eq_some_iff_mem cm.conversations cid conv hnd).mp hget
    have hcont := contains_expired_keys cm.conversations
      (fun p => decide (now - p.2.updated_at > cm.conversation_ttl)) hnd (cid, conv) hmem
    by_cases hexp : cm.conversation_ttl < now - conv.updated_at
    · simp only [hexp, if_true]
      simp
      exact ⟨conv, hmem, by omega⟩
    · simp only [hexp, if_false]
      simp
      intro x hx
      have hxc : (cid, x) = (cid, conv) :=
        entry_eq_of_nodup_keys cm.conversations hnd (cid, x) (cid, conv) hx hmem rfl
      have hxconv : x = conv := congrArg Prod.snd hxc
      subst hxconv
      omega
  · intro cid hget
    rw [hcm']
    refine dictGet_eq_none_of_not_mem_keys _ _ (fun hmem => ?_)
    obtain ⟨p, hp, hpc⟩ := List.mem_map.mp hmem
    have : cid ∈ cm.conversations.map Prod.fst :=
      hpc ▸ List.mem_map_of_mem Prod.fst (List.mem_of_mem_filter hp)
    exact dictGet_ne_none_of_mem_keys cm.conversations cid this hget
  · have hfc : cm'.conversations.length =
        (cm.conversations.filter (fun p =>
          !(decide (now - p.2.updated_at > cm.conversation_ttl)))).length := by
      rw [hcm']
      congr 1
      refine List.filter_congr (fun p hp => ?_)
      rw [contains_expired_keys cm.conversations _ hnd p hp]
    rw [hn, hfc, List.length_map]
    exact length_filter_add_length_filter_not cm.conversations _

/-- C8 (witness): sweeping a store holding one conversation idle for 5000
seconds and one idle for 2000 seconds (ttl 3600) removes exactly the first
and keeps the second unchanged. -/
theorem C8_sweep_witness :
    dictGet (⟨[("fresh", ⟨"fresh", 0, 3000, []⟩)], 10, 3600⟩ :
      ConversationManager).conversations "old" = none ∧
    dictGet (⟨[("fresh", ⟨"fresh", 0, 3000, []⟩)], 10, 3600⟩ :
      ConversationManager).conversations "fresh" = some ⟨"fresh", 0, 3000, []⟩ ∧
    1 + (⟨[("fresh", ⟨"fresh", 0, 3000, []⟩)], 10, 3600⟩ :
      ConversationManager).conversations.length =
      (⟨[("old", ⟨"old", 0, 0, []⟩), ("fresh", ⟨"fresh", 0, 3000, []⟩)], 10, 3600⟩ :
        ConversationManager).conversations.length := by
  have h := C8_sweep
    ⟨[("old", ⟨"old", 0, 0, []⟩), ("fresh", ⟨"fresh", 0, 3000, []⟩)], 10, 3600⟩ 5000
    ⟨[("fresh", ⟨"fresh", 0, 3000, []⟩)], 10, 3600⟩ 1 (by decide) rfl
  refine ⟨?_, ?_, h.2.2⟩
  · simpa using h.1 "old" ⟨"old", 0, 0, []⟩ rfl
  · simpa using h.1 "fresh" ⟨"fresh", 0, 3000, []⟩ rfl

/-- C10: an ask-cycle never faults. The `max(...)` computations in the
gate, in `handle_normal_response` and in the streaming `finally` block are
evaluated only under the zero-passages guard, so the empty-maximum
`ValueError` branch of `pyMaxE` is unreachable and `ask_question` always
returns a non-error outcome. -/
theorem C10_max_safe (cm : ConversationManager) (now : Int) (newId : String)
    (search : String → List SearchResult) (backend : Backend) (query : Query) :
    ∃ out, ask_question cm now newId search backend query = Except.ok out := by
  simp only [ask_question]
  split
  · exact ⟨_, rfl⟩
  · rename_i hne
    split
    · rename_i e heq
      exact absurd heq (pyMaxE_ne_error _ (fun hmap => hne (List.map_eq_nil_iff.mp hmap)) e)
    · split
      · exact ⟨_, rfl⟩
      · split
        · simp only [handle_streaming_response]
          split
          · rename_i e2 heq2
            exact absurd heq2
              (pyMaxE_ne_error _ (fun hmap => hne (List.map_eq_nil_iff.mp hmap)) e2)
          · exact ⟨_, rfl⟩
        · simp only [handle_normal_response]
          split
          · rename_i e2 heq2
            exact absurd heq2
              (pyMaxE_ne_error _ (fun hmap => hne (List.map_eq_nil_iff.mp hmap)) e2)
          · exact ⟨_, rfl⟩

/-- C5: in every streaming ask-cycle — the backend stub is arbitrary, so
this covers both successful generation and backend failure (which the
token generator converts into an ordinary fallback token) — the emitted
event sequence carries exactly one final-marker event, it is the last
event, and its token is empty. -/
theorem C5_stream_final (cm : ConversationManager) (now : Int) (newId : String)
    (search : String → List SearchResult) (backend : Backend) (query : Query)
    (cmOut : ConversationManager) (events : List StreamEvent) (tasks : List AppendTask)
    (h : ask_question cm now newId search backend query =
      Except.ok (cmOut, AskOutcome.streamed events, tasks)) :
    events.countP (fun e => e.is_final) = 1 ∧
    events.getLast?.map (fun e => (e.token, e.is_final)) = some ("", true) := by
  simp only [ask_question] at h
  split at h
  · simp at h
  · split at h
    · simp at h
    · split at h
      · simp at h
      · split at h
        · simp only [handle_streaming_response] at h
          split at h
          · simp at h
          · simp only [Except.ok.injEq, Prod.mk.injEq, AskOutcome.streamed.injEq] at h
            obtain ⟨-, hev, -⟩ := h
            subst hev
            exact ⟨countP_final_generate_stream_ok .., getLast_generate_stream_ok ..⟩
        · simp only [handle_normal_response] at h
          split at h
          · simp at h
          · simp at h

/-- C5 (witness): a concrete streaming cycle over two fragments emits the
two non-final events followed by the single final event with empty token. -/
theorem C5_stream_final_witness :
    ([⟨" AB", "new", false⟩, ⟨"C ", "new", false⟩,
      ⟨"", "new", true⟩] : List StreamEvent).countP (fun e => e.is_final) = 1 ∧
    ([⟨" AB", "new", false⟩, ⟨"C ", "new", false⟩,
      ⟨"", "new", true⟩] : List StreamEvent).getLast?.map
        (fun e => (e.token, e.is_final)) = some ("", true) :=
  C5_stream_final ⟨[], 10, 3600⟩ 0 "new" (fun _ => [⟨"t", none, 1/2⟩])
    ⟨fun _ => [" AB", "C "], fun _ => none⟩ ⟨"q?", 3, none, StreamOption.TRUE⟩
    ⟨[("new", ⟨"new", 0, 0, []⟩)], 10, 3600⟩
    [⟨" AB", "new", false⟩, ⟨"C ", "new", false⟩, ⟨"", "new", true⟩]
    [⟨"new", "user", "q?",
      [("has_relevant_docs", .b true), ("doc_count", .n 1), ("max_score", .q (1/2))]⟩,
     ⟨"new", "assistant", " ABC ",
      [("has_relevant_docs", .b true), ("sources_count", .n 1)]⟩]
    (by with_unfolding_all rfl)

/-- C4 (counterexample): for the deterministic stub producing the single
fragment `" hi "`, the streaming mode forwards it verbatim so the non-final
fragments concatenate to `" hi "`, while the buffered mode strips the
response to `"hi"`; the two differ. -/
theorem C4_counterexample :
    String.join (((generate_stream (StreamSource.ok
        (generate_stream_response_with_ollama ⟨fun _ => [" hi "], fun _ => none⟩
          "ctx" "q" [])) "id").1).filterMap
      (fun e => if e.is_final then none else some e.token)) ≠
    generate_response_with_ollama ⟨fun _ => [" hi "], fun _ => none⟩ "ctx" "q" [] := by
  decide

/-- C4 (amended: equality holds only up to whitespace stripping, which the
counterexample forces — the buffered mode strips the full response while
streaming forwards fragments verbatim): for every deterministic backend
stub on which generation succeeds, the buffered answer equals the stripped
concatenation of the non-final fragments of the streaming mode for the same
context, question and history. -/
theorem C4_stream_vs_buffered (backend : Backend) (context question : String)
    (hist : List Message) (cid : String)
    (h : backend.failAt (mkAxelPrompt context question hist) = none) :
    generate_response_with_ollama backend context question hist =
      pyStrip (String.join
        (((generate_stream (StreamSource.ok
            (generate_stream_response_with_ollama backend context question hist))
          cid).1).filterMap (fun e => if e.is_final then none else some e.token))) := by
  rw [nonFinal_of_generate_stream_ok]
  simp only [generate_response_with_ollama, generate_stream_response_with_ollama, h]

/-- C4 (witness): for a stub with fragments `"A"`, `"B"` the buffered
answer equals the stripped concatenation of the streamed fragments. -/
theorem C4_stream_vs_buffered_witness :
    generate_response_with_ollama ⟨fun _ => ["A", "B"], fun _ => none⟩ "ctx" "q" [] =
      pyStrip (String.join
        (((generate_stream (StreamSource.ok
            (generate_stream_response_with_ollama ⟨fun _ => ["A", "B"], fun _ => none⟩
              "ctx" "q" [])) "id").1).filterMap
          (fun e => if e.is_final then none else some e.token))) :=
  C4_stream_vs_buffered ⟨fun _ => ["A", "B"], fun _ => none⟩ "ctx" "q" [] "id" rfl

/-- C1: the relevance gate of an ask-cycle (retrieval abstracted by the
result list of the single search call). Zero passages: the fixed
no-relevant-information answer with empty sources. Otherwise, maximum score
below the 0.3 answer-worthiness threshold: the fixed insufficient-relevance
answer with the retrieved passages as sources. Otherwise the Generate
branch runs and the answer generator is invoked — buffered or streaming
according to the stream flag. -/
theorem C1_gate (cm : ConversationManager) (now : Int) (newId : String)
    (backend : Backend) (query : Query) (results : List SearchResult)
    (cm1 : ConversationManager) (cid : String)
    (hres : resolve_conversation cm now newId query.conversation_id = (cm1, cid)) :
    (results = [] →
      ask_question cm now newId (fun _ => results) backend query =
        Except.ok (cm1, AskOutcome.buffered
          ⟨noRelevantAnswer, [], query.question, some cid⟩,
          [⟨cid, "user", query.question, [("has_relevant_docs", .b false)]⟩,
           ⟨cid, "assistant", noRelevantAnswer, [("has_relevant_docs", .b false)]⟩])) ∧
    (∀ m, pyMax (results.map (fun r => r.score)) = some m → m < 3/10 →
      ask_question cm now newId (fun _ => results) backend query =
        Except.ok (cm1, AskOutcome.buffered
          ⟨lowRelevanceAnswer, format_sources results, query.question, some cid⟩,
          [⟨cid, "user", query.question,
            [("has_relevant_docs", .b false), ("max_score", .q m)]⟩,
           ⟨cid, "assistant", lowRelevanceAnswer,
            [("has_relevant_docs", .b false), ("max_score", .q m)]⟩])) ∧
    (∀ m, pyMax (results.map (fun r => r.score)) = some m → ¬ m < 3/10 →
      (query.stream = StreamOption.FALSE →
        ask_question cm now newId (fun _ => results) backend query =
          Except.ok (cm1, AskOutcome.buffered
            ⟨generate_response_with_ollama backend (buildContext results) query.question
                (cm1.get_recent_context cid 3),
             format_sources results, query.question, some cid⟩,
            [⟨cid, "user", query.question,
              [("has_relevant_docs", .b true), ("doc_count", .n results.length),
               ("max_score", .q m)]⟩,
             ⟨cid, "assistant",
              generate_response_with_ollama backend (buildContext results) query.question
                (cm1.get_recent_context cid 3),
              [("has_relevant_docs", .b true), ("sources_count", .n results.length)]⟩])) ∧
      (query.stream = StreamOption.TRUE →
        ask_question cm now newId (fun _ => results) backend query =
          Except.ok (cm1, AskOutcome.streamed
            (generate_stream (StreamSource.ok
              (generate_stream_response_with_ollama backend (buildContext results)
                query.question (cm1.get_recent_context cid 3))) cid).1,
            [⟨cid, "user", query.question,
              [("has_relevant_docs", .b true), ("doc_count", .n results.length),
               ("max_score", .q m)]⟩,
             ⟨cid, "assistant",
              (generate_stream (StreamSource.ok
                (generate_stream_response_with_ollama backend (buildContext results)
                  query.question (cm1.get_recent_context cid 3))) cid).2,
              [("has_relevant_docs", .b true),
               ("sources_count", .n results.length)]⟩]))) := by
  refine ⟨?_, ?_, ?_⟩
  · intro hnil
    simp only [ask_question, hres, hnil]
    simp
  · intro m hm hlt
    have hne : ¬ (results = []) := by
      intro hnil
      rw [hnil] at hm
      simp [pyMax] at hm
    simp only [ask_question, hres, if_neg hne, pyMaxE, hm, hlt, if_true]
  · intro m hm hge
    have hne : ¬ (results = []) := by
      intro hnil
      rw [hnil] at hm
      simp [pyMax] at hm
    constructor
    · intro hs
      simp only [ask_question, hres, if_neg hne, pyMaxE, hm, if_neg hge, hs,
        handle_normal_response]
      simp [pyMaxE, hm]
    · intro hs
      simp only [ask_question, hres, if_neg hne, pyMaxE, hm, if_neg hge, hs,
        handle_streaming_response]
      simp [pyMaxE, hm]

/-- C1 (witness): a fresh store and a fixed backend exercising all three
gate branches — empty retrieval, one passage scored 0.1 (below threshold),
and one passage scored 0.5 (at the Generate branch, both buffered and
streaming). -/
theorem C1_gate_witness :
    (ask_question ⟨[], 10, 3600⟩ 0 "new" (fun _ => [])
        ⟨fun _ => [" AB", "C "], fun _ => none⟩ ⟨"q?", 3, none, StreamOption.FALSE⟩ =
      Except.ok (⟨[("new", ⟨"new", 0, 0, []⟩)], 10, 3600⟩, AskOutcome.buffered
        ⟨noRelevantAnswer, [], "q?", some "new"⟩,
        [⟨"new", "user", "q?", [("has_relevant_docs", .b false)]⟩,
         ⟨"new", "assistant", noRelevantAnswer, [("has_relevant_docs", .b false)]⟩])) ∧
    (ask_question ⟨[], 10, 3600⟩ 0 "new" (fun _ => [⟨"t", none, 1/10⟩])
        ⟨fun _ => [" AB", "C "], fun _ => none⟩ ⟨"q?", 3, none, StreamOption.FALSE⟩ =
      Except.ok (⟨[("new", ⟨"new", 0, 0, []⟩)], 10, 3600⟩, AskOutcome.buffered
        ⟨lowRelevanceAnswer, format_sources [⟨"t", none, 1/10⟩], "q?", some "new"⟩,
        [⟨"new", "user", "q?",
          [("has_relevant_docs", .b false), ("max_score", .q (1/10))]⟩,
         ⟨"new", "assistant", lowRelevanceAnswer,
          [("has_relevant_docs", .b false), ("max_score", .q (1/10))]⟩])) ∧
    (ask_question ⟨[], 10, 3600⟩ 0 "new" (fun _ => [⟨"t", none, 1/2⟩])
        ⟨fun _ => [" AB", "C "], fun _ => none⟩ ⟨"q?", 3, none, StreamOption.FALSE⟩ =
      Except.ok (⟨[("new", ⟨"new", 0, 0, []⟩)], 10, 3600⟩, AskOutcome.buffered
        ⟨generate_response_with_ollama ⟨fun _ => [" AB", "C "], fun _ => none⟩
            (buildContext [⟨"t", none, 1/2⟩]) "q?"
            ((⟨[("new", ⟨"new", 0, 0, []⟩)], 10, 3600⟩ :
              ConversationManager).get_recent_context "new" 3),
         format_sources [⟨"t", none, 1/2⟩], "q?", some "new"⟩,
        [⟨"new", "user", "q?",
          [("has_relevant_docs", .b true), ("doc_count", .n 1), ("max_score", .q (1/2))]⟩,
         ⟨"new", "assistant",
          generate_response_with_ollama ⟨fun _ => [" AB", "C "], fun _ => none⟩
            (buildContext [⟨"t", none, 1/2⟩]) "q?"
            ((⟨[("new", ⟨"new", 0, 0, []⟩)], 10, 3600⟩ :
              ConversationManager).get_recent_context "new" 3),
          [("has_relevant_docs", .b true), ("sources_count", .n 1)]⟩])) ∧
    (ask_question ⟨[], 10, 3600⟩ 0 "new" (fun _ => [⟨"t", none, 1/2⟩])
        ⟨fun _ => [" AB", "C "], fun _ => none⟩ ⟨"q?", 3, none, StreamOption.TRUE⟩ =
      Except.ok (⟨[("new", ⟨"new", 0, 0, []⟩)], 10, 3600⟩, AskOutcome.streamed
        (generate_stream (StreamSource.ok
          (generate_stream_response_with_ollama ⟨fun _ => [" AB", "C "], fun _ => none⟩
            (buildContext [⟨"t", none, 1/2⟩]) "q?"
            ((⟨[("new", ⟨"new", 0, 0, []⟩)], 10, 3600⟩ :
              ConversationManager).get_recent_context "new" 3))) "new").1,
        [⟨"new", "user", "q?",
          [("has_relevant_docs", .b true), ("doc_count", .n 1), ("max_score", .q (1/2))]⟩,
         ⟨"new", "assistant",
          (generate_stream (StreamSource.ok
            (generate_stream_response_with_ollama ⟨fun _ => [" AB", "C "], fun _ => none⟩
              (buildContext [⟨"t", none, 1/2⟩]) "q?"
              ((⟨[("new", ⟨"new", 0, 0, []⟩)], 10, 3600⟩ :
                ConversationManager).get_recent_context "new" 3))) "new").2,
          [("has_relevant_docs", .b true), ("sources_count", .n 1)]⟩])) :=
  ⟨(C1_gate ⟨[], 10, 3600⟩ 0 "new" ⟨fun _ => [" AB", "C "], fun _ => none⟩
      ⟨"q?", 3, none, StreamOption.FALSE⟩ [] ⟨[("new", ⟨"new", 0, 0, []⟩)], 10, 3600⟩
      "new" rfl).1 rfl,
   (C1_gate ⟨[], 10, 3600⟩ 0 "new" ⟨fun _ => [" AB", "C "], fun _ => none⟩
      ⟨"q?", 3, none, StreamOption.FALSE⟩ [⟨"t", none, 1/10⟩]
      ⟨[("new", ⟨"new", 0, 0, []⟩)], 10, 3600⟩ "new" rfl).2.1 (1/10)
      (by with_unfolding_all rfl) (by norm_num),
   ((C1_gate ⟨[], 10, 3600⟩ 0 "new" ⟨fun _ => [" AB", "C "], fun _ => none⟩
      ⟨"q?", 3, none, StreamOption.FALSE⟩ [⟨"t", none, 1/2⟩]
      ⟨[("new", ⟨"new", 0, 0, []⟩)], 10, 3600⟩ "new" rfl).2.2 (1/2)
      (by with_unfolding_all rfl) (by norm_num)).1 rfl,
   ((C1_gate ⟨[], 10, 3600⟩ 0 "new" ⟨fun _ => [" AB", "C "], fun _ => none⟩
      ⟨"q?", 3, none, StreamOption.TRUE⟩ [⟨"t", none, 1/2⟩]
      ⟨[("new", ⟨"new", 0, 0, []⟩)], 10, 3600⟩ "new" rfl).2.2 (1/2)
      (by with_unfolding_all rfl) (by norm_num)).2 rfl⟩

/-- C6: every terminal branch of an ask-cycle (no-evidence, low-relevance,
normal, degraded — the backend stub is arbitrary, so degraded generation is
included; streaming likewise) schedules exactly two background appends for
the resolved conversation: first a user message carrying the question, then
an assistant message carrying the returned answer; running them leaves
those two messages as the most recent two of the conversation (store
capacity at least 2, as in the deployed `max_history = 10`). -/
theorem C6_turn_recording (cm : ConversationManager) (now : Int) (newId : String)
    (search : String → List SearchResult) (backend : Backend) (query : Query)
    (cmOut : ConversationManager) (outcome : AskOutcome) (tasks : List AppendTask)
    (hcap : 2 ≤ cm.max_history)
    (h : ask_question cm now newId search backend query =
      Except.ok (cmOut, outcome, tasks)) :
    ∃ cid meta1 meta2,
      tasks = [⟨cid, "user", query.question, meta1⟩,
               ⟨cid, "assistant", returnedAnswer outcome, meta2⟩] ∧
      (∀ now2, ∃ conv,
        dictGet (runTasks cmOut now2 tasks).conversations cid = some conv ∧
        conv.messages.rtake 2 =
          [⟨"user", query.question, now2, meta1⟩,
           ⟨"assistant", returnedAnswer outcome, now2, meta2⟩]) := by
  obtain ⟨conv0, hconv0⟩ := resolve_conversation_found cm now newId query.conversation_id
  have hcap1 : 2 ≤ (resolve_conversation cm now newId query.conversation_id).1.max_history := by
    rw [resolve_conversation_max_history]
    exact hcap
  simp only [ask_question] at h
  split at h
  · simp only [Except.ok.injEq, Prod.mk.injEq] at h
    obtain ⟨hcm, hout, htasks⟩ := h
    subst hcm
    subst hout
    subst htasks
    refine ⟨_, _, _, rfl, fun now2 => ?_⟩
    exact run_two_appends _ now2 _ conv0 hconv0 hcap1 _ _ rfl rfl
  · split at h
    · simp at h
    · split at h
      · simp only [Except.ok.injEq, Prod.mk.injEq] at h
        obtain ⟨hcm, hout, htasks⟩ := h
        subst hcm
        subst hout
        subst htasks
        refine ⟨_, _, _, rfl, fun now2 => ?_⟩
        exact run_two_appends _ now2 _ conv0 hconv0 hcap1 _ _ rfl rfl
      · split at h
        · simp only [handle_streaming_response] at h
          split at h
          · simp at h
          · simp only [Except.ok.injEq, Prod.mk.injEq] at h
            obtain ⟨hcm, hout, htasks⟩ := h
            subst hcm
            subst hout
            subst htasks
            rw [returnedAnswer_streamed_ok]
            refine ⟨_, _, _, rfl, fun now2 => ?_⟩
            exact run_two_appends _ now2 _ conv0 hconv0 hcap1 _ _ rfl rfl
        · simp only [handle_normal_response] at h
          split at h
          · simp at h
          · simp only [Except.ok.injEq, Prod.mk.injEq] at h
            obtain ⟨hcm, hout, htasks⟩ := h
            subst hcm
            subst hout
            subst htasks
            refine ⟨_, _, _, rfl, fun now2 => ?_⟩
            exact run_two_appends _ now2 _ conv0 hconv0 hcap1 _ _ rfl rfl

/-- C6 (witness): a concrete normal-branch cycle (one passage scored 0.5,
buffered mode, capacity 10) schedules exactly the user/assistant pair and,
once run, leaves them as the conversation's two most recent messages. -/
theorem C6_turn_recording_witness :
    ∃ cid meta1 meta2,
      ([⟨"new", "user", "q?",
          [("has_relevant_docs", .b true), ("doc_count", .n 1), ("max_score", .q (1/2))]⟩,
        ⟨"new", "assistant", "ABC",
          [("has_relevant_docs", .b true), ("sources_count", .n 1)]⟩] :
        List AppendTask) =
        [⟨cid, "user", "q?", meta1⟩,
         ⟨cid, "assistant",
          returnedAnswer (AskOutcome.buffered ⟨"ABC", [⟨"t", [], 1/2⟩], "q?", some "new"⟩),
          meta2⟩] ∧
      (∀ now2, ∃ conv,
        dictGet (runTasks ⟨[("new", ⟨"new", 0, 0, []⟩)], 10, 3600⟩ now2
          [⟨"new", "user", "q?",
            [("has_relevant_docs", .b true), ("doc_count", .n 1), ("max_score", .q (1/2))]⟩,
           ⟨"new", "assistant", "ABC",
            [("has_relevant_docs", .b true), ("sources_count", .n 1)]⟩]).conversations
          cid = some conv ∧
        conv.messages.rtake 2 =
          [⟨"user", "q?", now2, meta1⟩,
           ⟨"assistant",
            returnedAnswer (AskOutcome.buffered ⟨"ABC", [⟨"t", [], 1/2⟩], "q?", some "new"⟩),
            now2, meta2⟩]) :=
  C6_turn_recording ⟨[], 10, 3600⟩ 0 "new" (fun _ => [⟨"t", none, 1/2⟩])
    ⟨fun _ => [" AB", "C "], fun _ => none⟩ ⟨"q?", 3, none, StreamOption.FALSE⟩
    ⟨[("new", ⟨"new", 0, 0, []⟩)], 10, 3600⟩
    (AskOutcome.buffered ⟨"ABC", [⟨"t", [], 1/2⟩], "q?", some "new"⟩)
    [⟨"new", "user", "q?",
      [("has_relevant_docs", .b true), ("doc_count", .n 1), ("max_score", .q (1/2))]⟩,
     ⟨"new", "assistant", "ABC",
      [("has_relevant_docs", .b true), ("sources_count", .n 1)]⟩]
    (by norm_num) (by with_unfolding_all rfl)

end Claims

end RagAxel
